import Mathlib

/-
Shallow embedding of the EdgeBet odds-scoring core (src/index.js, the
variant that contains the seven-agent pipeline: parseGame, the signal
agents, agentConsensus, detectArbitrage and the lineHistory side table).

Numbers are modelled as rationals.  The JavaScript Map named lineHistory
is modelled as an association list threaded explicitly through the
functions that read or write it (recordLineMovement, agentLineMovement,
agentConsensus).  String formatting (toFixed, template strings) is kept
as exact rational data; the two-decimal rounding used by the arbitrage
sort comparator is modelled by round2.
-/

-- ── MATH UTILS (src/index.js lines 628-640) ───────────────────────────────────

def impliedProb (odds : ℚ) : ℚ :=
  if odds > 0 then 100 / (odds + 100) else |odds| / (|odds| + 100)

def devig (price1 price2 : ℚ) : ℚ × ℚ :=
  let ip1 := impliedProb price1
  let ip2 := impliedProb price2
  let total := ip1 + ip2
  (ip1 / total, ip2 / total)

def avg (arr : List ℚ) : ℚ := arr.foldl (· + ·) 0 / (arr.length : ℚ)

def jsMax : List ℚ → ℚ
  | [] => 0
  | x :: xs => xs.foldl max x

def jsMin : List ℚ → ℚ
  | [] => 0
  | x :: xs => xs.foldl min x

def jsRound (q : ℚ) : ℤ := ⌊q + 1/2⌋

def round1 (q : ℚ) : ℚ := (jsRound (q * 10) : ℚ) / 10

def round2 (q : ℚ) : ℚ := (jsRound (q * 100) : ℚ) / 100

-- ── RAW FEED DATA MODEL ───────────────────────────────────────────────────────

structure Outcome where
  name : String
  price : ℚ
  point : ℚ
deriving DecidableEq, Inhabited

structure Market where
  key : String
  outcomes : List Outcome
deriving DecidableEq, Inhabited

structure Bookmaker where
  key : String
  markets : List Market
deriving DecidableEq, Inhabited

structure RawGame where
  home_team : String
  away_team : String
  commence_time : String
  bookmakers : List Bookmaker
deriving DecidableEq, Inhabited

def SHARP_BOOKS : List String :=
  ["pinnacle", "betcris", "betonlineag", "bovada", "lowvig"]

-- ── NORMALIZED GAME (parseGame output) ────────────────────────────────────────

structure SpreadLine where
  book : String
  isSharp : Bool
  homePoint : ℚ
  homePrice : ℚ
  awayPoint : ℚ
  awayPrice : ℚ
deriving DecidableEq, Inhabited

structure TotalLine where
  book : String
  isSharp : Bool
  point : ℚ
  overPrice : ℚ
  underPrice : ℚ
deriving DecidableEq, Inhabited

structure MLLine where
  book : String
  isSharp : Bool
  homePrice : ℚ
  awayPrice : ℚ
deriving DecidableEq, Inhabited

structure Game where
  sport : String
  gameId : String
  homeTeam : String
  awayTeam : String
  commenceTime : String
  spreadLines : List SpreadLine
  totalLines : List TotalLine
  mlLines : List MLLine
deriving DecidableEq, Inhabited

def replaceSpaces (s : String) : String :=
  String.mk (s.data.map (fun c => if c = ' ' then '_' else c))

def gameIdOf (sportLabel home away : String) : String :=
  replaceSpaces (sportLabel ++ "_" ++ home ++ "_" ++ away)

def spreadLineOf (g : RawGame) (bk : Bookmaker) (mkt : Market) : Option SpreadLine :=
  if mkt.key = "spreads" then
    match mkt.outcomes.find? (fun o => o.name == g.home_team),
          mkt.outcomes.find? (fun o => o.name == g.away_team) with
    | some home, some away =>
        some ⟨bk.key, SHARP_BOOKS.contains bk.key,
              home.point, home.price, away.point, away.price⟩
    | _, _ => none
  else none

def totalLineOf (_g : RawGame) (bk : Bookmaker) (mkt : Market) : Option TotalLine :=
  if mkt.key = "totals" then
    match mkt.outcomes.find? (fun o => o.name == "Over"),
          mkt.outcomes.find? (fun o => o.name == "Under") with
    | some over, some under =>
        some ⟨bk.key, SHARP_BOOKS.contains bk.key, over.point, over.price, under.price⟩
    | _, _ => none
  else none

def mlLineOf (g : RawGame) (bk : Bookmaker) (mkt : Market) : Option MLLine :=
  if mkt.key = "h2h" then
    match mkt.outcomes.find? (fun o => o.name == g.home_team),
          mkt.outcomes.find? (fun o => o.name == g.away_team) with
    | some home, some away =>
        some ⟨bk.key, SHARP_BOOKS.contains bk.key, home.price, away.price⟩
    | _, _ => none
  else none

def parseGame (g : RawGame) (sportLabel : String) : Game :=
  ⟨sportLabel, gameIdOf sportLabel g.home_team g.away_team,
   g.home_team, g.away_team, g.commence_time,
   g.bookmakers.flatMap (fun bk => bk.markets.filterMap (spreadLineOf g bk)),
   g.bookmakers.flatMap (fun bk => bk.markets.filterMap (totalLineOf g bk)),
   g.bookmakers.flatMap (fun bk => bk.markets.filterMap (mlLineOf g bk))⟩

-- ── LINE HISTORY SIDE TABLE (lineHistory Map, recordLineMovement) ─────────────

structure HistEntry where
  timestamps : List ℕ
  lines : List ℚ
  books : List String
deriving DecidableEq, Inhabited

abbrev HistoryMap := List (String × HistEntry)

def hmGet : HistoryMap → String → Option HistEntry
  | [], _ => none
  | p :: t, k => if p.1 = k then some p.2 else hmGet t k

def hmSet : HistoryMap → String → HistEntry → HistoryMap
  | [], k, v => [(k, v)]
  | p :: t, k, v => if p.1 = k then (k, v) :: t else p :: hmSet t k v

def recordLineMovement (now : ℕ) (s : HistoryMap) (gameId : String)
    (line : ℚ) (book : String) : HistoryMap :=
  match hmGet s gameId with
  | none => hmSet s gameId ⟨[now], [line], [book]⟩
  | some h =>
      if h.timestamps = [] ∨ h.timestamps.getLast?.getD 0 + 300000 < now then
        hmSet s gameId ⟨h.timestamps ++ [now], h.lines ++ [line], h.books ++ [book]⟩
      else s

def recordSeq (g : Game) : List (String × ℚ × String) :=
  g.spreadLines.map (fun l => (g.gameId, l.awayPoint, l.book))

def recordAll (now : ℕ) (s : HistoryMap) (games : List Game) : HistoryMap :=
  (games.flatMap recordSeq).foldl
    (fun st r => recordLineMovement now st r.1 r.2.1 r.2.2) s

-- ── AGENT 1: VALUE ────────────────────────────────────────────────────────────

structure ValuePick where
  side : String
  team : String
  point : Option ℚ
  odds : ℚ
  edge : ℚ
  market : String
deriving DecidableEq, Inhabited

def agentValue (game : Game) : List ValuePick :=
  (if 2 ≤ game.spreadLines.length then
    let bestHomePrice := jsMax (game.spreadLines.map (·.homePrice))
    let bestAwayPrice := jsMax (game.spreadLines.map (·.awayPrice))
    let avgHome := avg (game.spreadLines.map (·.homePrice))
    let avgAway := avg (game.spreadLines.map (·.awayPrice))
    let trueProbs := devig avgHome avgAway
    let edgeHome := (trueProbs.1 - impliedProb bestHomePrice) * 100
    let edgeAway := (trueProbs.2 - impliedProb bestAwayPrice) * 100
    let homePoint := game.spreadLines.headI.homePoint
    let awayPoint := game.spreadLines.headI.awayPoint
    (if edgeHome > 5/2 then
      [⟨"home", game.homeTeam, some homePoint, bestHomePrice, edgeHome, "spread"⟩]
     else []) ++
    (if edgeAway > 5/2 then
      [⟨"away", game.awayTeam, some awayPoint, bestAwayPrice, edgeAway, "spread"⟩]
     else [])
  else []) ++
  (if 2 ≤ game.mlLines.length then
    let bestAwayML := jsMax (game.mlLines.map (·.awayPrice))
    let avgHomeML := avg (game.mlLines.map (·.homePrice))
    let avgAwayML := avg (game.mlLines.map (·.awayPrice))
    let trueAway := (devig avgHomeML avgAwayML).2
    let edgeAwayML := (trueAway - impliedProb bestAwayML) * 100
    if edgeAwayML > 7/2 ∧ bestAwayML > 110 then
      [⟨"away", game.awayTeam, none, bestAwayML, edgeAwayML, "moneyline"⟩]
    else []
  else [])

-- ── AGENT 2: LINE MOVEMENT (reads the lineHistory side table) ─────────────────

structure LMSignal where
  side : Option String
  market : Option String
  type : Option String
  bestLine : Option ℚ
  spread : Option ℚ
  diff : Option ℚ
  move : Option ℚ
  direction : Option String
  strength : String
deriving DecidableEq, Inhabited

def agentLineMovement (hist : HistoryMap) (game : Game) : List LMSignal :=
  if game.spreadLines.length < 2 then [] else
  let awayPoints := game.spreadLines.map (·.awayPoint)
  let lineSpread := jsMax awayPoints - jsMin awayPoints
  let s1 : List LMSignal :=
    if lineSpread ≥ 1/2 then
      let bestForAway := game.spreadLines.foldl
        (fun best l => if l.awayPoint > best.awayPoint then l else best)
        game.spreadLines.headI
      [⟨some game.awayTeam, some "spread", none, some bestForAway.awayPoint,
        some lineSpread, none, none, none,
        if lineSpread ≥ 3/2 then "strong"
        else if lineSpread ≥ 1 then "moderate" else "weak"⟩]
    else []
  let sharpLines := game.spreadLines.filter (·.isSharp)
  let squareLines := game.spreadLines.filter (fun l => !l.isSharp)
  let s2 : List LMSignal :=
    if sharpLines ≠ [] ∧ squareLines ≠ [] then
      let sharpAvg := avg (sharpLines.map (·.awayPoint))
      let squareAvg := avg (squareLines.map (·.awayPoint))
      let diff := sharpAvg - squareAvg
      if |diff| ≥ 1/2 then
        [⟨some (if diff > 0 then game.awayTeam else game.homeTeam), some "spread",
          some "sharp_vs_square", none, none, some diff, none, none,
          if |diff| ≥ 1 then "strong" else "moderate"⟩]
      else []
    else []
  let s3 : List LMSignal :=
    match hmGet hist game.gameId with
    | some h =>
        if 2 ≤ h.lines.length then
          let oldLine := h.lines.headI
          let newLine := h.lines.getLast?.getD 0
          let move := newLine - oldLine
          if |move| ≥ 1 then
            [⟨none, none, some "historical", none, none, none, some move,
              some (if move > 0 then "toward_away" else "toward_home"),
              if |move| ≥ 2 then "strong" else "moderate"⟩]
          else []
        else []
    | none => []
  s1 ++ s2 ++ s3

-- ── AGENT 3: PUBLIC MONEY ─────────────────────────────────────────────────────

structure PublicSignal where
  market : String
  publicSide : String
  publicPct : ℤ
  contrarianSide : String
  contrarianPct : ℤ
deriving DecidableEq, Inhabited

def agentPublicMoney (game : Game) : List PublicSignal :=
  let squareSpread := game.spreadLines.filter (fun l => !l.isSharp)
  if squareSpread ≠ [] then
    let avgHomeJuice := avg (squareSpread.map (fun l => impliedProb l.homePrice))
    let avgAwayJuice := avg (squareSpread.map (fun l => impliedProb l.awayPrice))
    let publicIsHome := avgHomeJuice > avgAwayJuice
    let heavierSidePct := jsRound (max avgHomeJuice avgAwayJuice * 100)
    let publicPct := min 80 (max 55 (heavierSidePct + 8))
    [⟨"spread",
      if publicIsHome then game.homeTeam else game.awayTeam,
      publicPct,
      if publicIsHome then game.awayTeam else game.homeTeam,
      100 - publicPct⟩]
  else []

-- ── AGENT 4: SHARP MONEY ──────────────────────────────────────────────────────

structure SharpSignal where
  type : String
  sharpSide : Option String
  publicSide : Option String
  market : String
  signal : String
  rlmDetected : Bool
  diffPts : Option ℚ
  juiceDiff : Option ℚ
deriving DecidableEq, Inhabited

def agentSharpMoney (game : Game) : List SharpSignal :=
  if game.spreadLines.length < 2 then [] else
  let sharpLines := game.spreadLines.filter (·.isSharp)
  let squareLines := game.spreadLines.filter (fun l => !l.isSharp)
  let s1 : List SharpSignal :=
    if sharpLines ≠ [] ∧ squareLines ≠ [] then
      let sharpAwayAvg := avg (sharpLines.map (·.awayPoint))
      let squareAwayAvg := avg (squareLines.map (·.awayPoint))
      let sharpHomeJuice := avg (sharpLines.map (·.homePrice))
      let squareHomeJuice := avg (squareLines.map (·.homePrice))
      if sharpAwayAvg > squareAwayAvg + 1/2 ∧ squareHomeJuice < sharpHomeJuice then
        [⟨"RLM", some game.awayTeam, none, "spread", "strong", true,
          some (sharpAwayAvg - squareAwayAvg), none⟩]
      else []
    else []
  let allHomeJuice := avg (game.spreadLines.map (fun l => impliedProb l.homePrice))
  let allAwayJuice := avg (game.spreadLines.map (fun l => impliedProb l.awayPrice))
  let juiceDiff := allHomeJuice - allAwayJuice
  let s2 : List SharpSignal :=
    if |juiceDiff| > 4/100 then
      [⟨"juice_imbalance",
        some (if juiceDiff > 0 then game.awayTeam else game.homeTeam),
        some (if juiceDiff > 0 then game.homeTeam else game.awayTeam),
        "spread",
        if |juiceDiff| > 7/100 then "strong" else "moderate",
        false, none, some (|juiceDiff| * 100)⟩]
    else []
  s1 ++ s2

-- ── AGENT 5: INJURY / ANOMALY ─────────────────────────────────────────────────

structure InjuryFlag where
  flag : String
  severity : String
deriving DecidableEq, Inhabited

structure InjuryData where
  flags : List InjuryFlag
  lineImpact : String
deriving DecidableEq, Inhabited

def agentInjury (game : Game) : InjuryData :=
  let flags : List InjuryFlag :=
    if game.spreadLines ≠ [] then
      let awayPoint := game.spreadLines.headI.awayPoint
      let homePrice := game.spreadLines.headI.homePrice
      let awayPrice := game.spreadLines.headI.awayPrice
      (if awayPoint > 14 then
        [⟨"large underdogs, verify roster", "check"⟩] else []) ++
      (if homePrice < -135 ∨ awayPrice < -135 then
        [⟨"Heavy juice, may reflect injury news", "moderate"⟩] else []) ++
      (if 3 ≤ game.spreadLines.length ∧
          jsMax (game.spreadLines.map (·.awayPoint)) -
            jsMin (game.spreadLines.map (·.awayPoint)) ≥ 2 then
        [⟨"High spread variance, market reacting to news", "check"⟩] else [])
    else []
  ⟨if flags ≠ [] then flags else [⟨"No unusual line shapes", "none"⟩],
   if flags ≠ [] then "check_reports" else "none"⟩

-- ── AGENT 6: SITUATIONAL ──────────────────────────────────────────────────────

structure SitEdge where
  edge : String
  side : String
  betType : String
  odds : Option ℚ
  strength : String
deriving DecidableEq, Inhabited

def agentSituational (game : Game) : List SitEdge :=
  (if game.spreadLines ≠ [] then
    let awayPoint := game.spreadLines.headI.awayPoint
    let homePoint := game.spreadLines.headI.homePoint
    (if awayPoint > 0 then
      [⟨"Road underdog spot", game.awayTeam, "spread", none,
        if awayPoint > 6 then "strong"
        else if awayPoint > 3 then "moderate" else "weak"⟩] else []) ++
    (if homePoint < -9 then
      [⟨"Large home chalk fade", game.awayTeam, "spread", none,
        if homePoint < -13 then "moderate" else "weak"⟩] else [])
  else []) ++
  (if game.mlLines ≠ [] then
    let bestAwayML := jsMax (game.mlLines.map (·.awayPrice))
    if bestAwayML > 160 then
      [⟨"Big underdog ML value", game.awayTeam, "moneyline", some bestAwayML,
        if bestAwayML > 250 then "moderate" else "weak"⟩]
    else []
  else [])

-- ── AGENT 7: CONSENSUS SCORER ─────────────────────────────────────────────────

structure Candidate where
  homeTeam : String
  awayTeam : String
  sport : String
  betSide : String
  betPoint : Option ℚ
  betType : String
  odds : ℚ
  confidence : ℤ
  edge : ℚ
  team : String
  score : ℚ
  lineSparkline : List ℚ
deriving DecidableEq, Inhabited

def lineScore : Option LMSignal → ℚ
  | some l => if l.strength = "strong" then 20
              else if l.strength = "moderate" then 12 else 6
  | none => 0

def pubScore (team : String) : Option PublicSignal → ℚ
  | some p => if p.contrarianSide = team then
                (if p.publicPct > 68 then 20
                 else if p.publicPct > 60 then 13 else 7)
              else 0
  | none => 0

def sharpScore : Option SharpSignal → ℚ
  | some s => (if s.signal = "strong" then 22
               else if s.signal = "moderate" then 13 else 7) +
              (if s.rlmDetected then 5 else 0)
  | none => 0

def injuryScore (d : InjuryData) : ℚ :=
  if d.lineImpact = "check_reports" then -10 else 0

def sitScore : Option SitEdge → ℚ
  | some s => if s.strength = "strong" then 15
              else if s.strength = "moderate" then 9 else 5
  | none => 0

def scoreOf (hist : HistoryMap) (game : Game) (vp : ValuePick) : ℚ :=
  let lineSignals := agentLineMovement hist game
  let publicSignals := agentPublicMoney game
  let sharpSignals := agentSharpMoney game
  let injuryData := agentInjury game
  let situational := agentSituational game
  min (vp.edge * (9/2)) 35
  + lineScore (lineSignals.find? (fun l => l.side == some vp.team))
  + pubScore vp.team (publicSignals.find? (fun p => p.market == vp.market))
  + sharpScore (sharpSignals.find? (fun s =>
      s.sharpSide == some vp.team ||
      (!(s.publicSide == none) && !(s.publicSide == some vp.team))))
  + injuryScore injuryData
  + sitScore (situational.find? (fun s => s.side == vp.team))

def mkCandidate (hist : HistoryMap) (game : Game) (vp : ValuePick) : Candidate :=
  let score := scoreOf hist game vp
  let confidence : ℤ := min 90 (max 55 (jsRound (score * (65/100) + 20)))
  let edge : ℚ := max 0 (min 14 (round1 (vp.edge * (88/100))))
  let sparkline := ((hmGet hist game.gameId).map (·.lines)).getD []
  ⟨game.homeTeam, game.awayTeam, game.sport, vp.side, vp.point,
   if vp.market = "moneyline" then "moneyline"
   else if vp.market = "total" then "total" else "spread",
   vp.odds, confidence, edge, vp.team, score, sparkline⟩

def candidatesOf (hist : HistoryMap) (games : List Game) : List Candidate :=
  games.flatMap (fun g => (agentValue g).filterMap (fun vp =>
    let c := mkCandidate hist g vp
    if c.confidence < 65 ∨ c.edge < 7/2 then none else some c))

def agentConsensus (hist : HistoryMap) (games : List Game) : List Candidate :=
  ((candidatesOf hist games).mergeSort
    (fun a b => decide (b.score ≤ a.score))).take 8

-- ── ARBITRAGE DETECTOR ────────────────────────────────────────────────────────

structure ArbOpp where
  type : String
  sport : String
  homeTeam : String
  awayTeam : String
  awayBook : String
  homeBook : String
  awayOdds : ℚ
  homeOdds : ℚ
  awayLinePt : Option ℚ
  homeLinePt : Option ℚ
  profit : ℚ
  stakeAway : Option ℚ
  stakeHome : Option ℚ
deriving DecidableEq, Inhabited

def mkSpreadArb (game : Game) (away home : SpreadLine) : ArbOpp :=
  ⟨"spread", game.sport, game.homeTeam, game.awayTeam, away.book, home.book,
   away.awayPrice, home.homePrice, some away.awayPoint, some home.homePoint,
   (1 / (impliedProb away.awayPrice + impliedProb home.homePrice) - 1) * 100,
   some (100 * impliedProb away.awayPrice /
     (impliedProb away.awayPrice + impliedProb home.homePrice)),
   some (100 * impliedProb home.homePrice /
     (impliedProb away.awayPrice + impliedProb home.homePrice))⟩

def mkMlArb (game : Game) (away home : MLLine) : ArbOpp :=
  ⟨"moneyline", game.sport, game.homeTeam, game.awayTeam, away.book, home.book,
   away.awayPrice, home.homePrice, none, none,
   (1 / (impliedProb away.awayPrice + impliedProb home.homePrice) - 1) * 100,
   none, none⟩

def spreadArbs (game : Game) : List ArbOpp :=
  if 2 ≤ game.spreadLines.length then
    game.spreadLines.flatMap (fun away =>
      game.spreadLines.filterMap (fun home =>
        if away.book = home.book then none
        else if impliedProb away.awayPrice + impliedProb home.homePrice < 98/100 then
          some (mkSpreadArb game away home)
        else none))
  else []

def mlArbs (game : Game) : List ArbOpp :=
  if 2 ≤ game.mlLines.length then
    game.mlLines.flatMap (fun away =>
      game.mlLines.filterMap (fun home =>
        if away.book = home.book then none
        else if impliedProb away.awayPrice + impliedProb home.homePrice < 98/100 then
          some (mkMlArb game away home)
        else none))
  else []

def detectArbitrage (games : List Game) : List ArbOpp :=
  (games.flatMap (fun g => spreadArbs g ++ mlArbs g)).mergeSort
    (fun a b => decide (round2 b.profit ≤ round2 a.profit))

-- ── SCAN PIPELINE (the /scan route: parse all sports, record history, score) ──

def scanOnce (now : ℕ) (s : HistoryMap) (input : List (String × RawGame)) :
    HistoryMap × List Candidate × List ArbOpp :=
  let games := input.map (fun p => parseGame p.2 p.1)
  let s1 := recordAll now s games
  (s1, agentConsensus s1 games, (detectArbitrage games).take 5)

-- ── CONCRETE FIXTURES ─────────────────────────────────────────────────────────

def rawFix : RawGame :=
  ⟨"H", "A", "t0",
   [⟨"pinnacle",
     [⟨"spreads", [⟨"H", -110, -3⟩, ⟨"A", -110, 3⟩]⟩,
      ⟨"h2h", [⟨"H", -200, 0⟩, ⟨"A", 170, 0⟩]⟩]⟩,
    ⟨"fanduel",
     [⟨"spreads", [⟨"H", -120, -3⟩, ⟨"A", 200, 3⟩]⟩,
      ⟨"h2h", [⟨"H", -250, 0⟩, ⟨"A", 300, 0⟩]⟩]⟩]⟩

def gFix : Game :=
  ⟨"NBA", "NBA_H_A", "H", "A", "t0",
   [⟨"pinnacle", true, -3, -110, 3, -110⟩,
    ⟨"fanduel", false, -3, -120, 3, 200⟩],
   [],
   [⟨"pinnacle", true, -200, 170⟩,
    ⟨"fanduel", false, -250, 300⟩]⟩

def vpFix : ValuePick := ⟨"away", "A", some 3, 200, 11700/509, "spread"⟩

def gML : Game :=
  ⟨"NBA", "NBA_X_Y", "X", "Y", "t0", [], [],
   [⟨"pinnacle", true, 120, 120⟩,
    ⟨"fanduel", false, 120, 120⟩]⟩

def gRLMc : Game :=
  ⟨"NBA", "NBA_P_Q", "P", "Q", "t0",
   [⟨"pinnacle", true, -3, -110, 3, -110⟩,
    ⟨"fanduel", false, -2, -105, 2, -115⟩],
   [], []⟩

def gRLM : Game :=
  ⟨"NBA", "NBA_R_S", "R", "S", "t0",
   [⟨"pinnacle", true, -7/2, -105, 7/2, -115⟩,
    ⟨"fanduel", false, -5/2, -120, 5/2, -110⟩],
   [], []⟩

def gInj : Game :=
  ⟨"NBA", "NBA_U_V", "U", "V", "t0",
   [⟨"fanduel", false, -1, -110, 1, -110⟩],
   [],
   [⟨"fanduel", false, -150, 130⟩]⟩

def gInj3 : Game :=
  ⟨"NBA", "NBA_W_Z", "W", "Z", "t0",
   [⟨"fanduel", false, -15, -140, 15, -110⟩,
    ⟨"draftkings", false, -16, -110, 16, -110⟩,
    ⟨"caesars", false, -17, -110, 17, -110⟩],
   [], []⟩

-- ── HELPER LEMMAS ─────────────────────────────────────────────────────────────

lemma impliedProb_nonneg (q : ℚ) : 0 ≤ impliedProb q := by
  rw [impliedProb]; split_ifs with h
  · exact div_nonneg (by norm_num) (by linarith)
  · exact div_nonneg (abs_nonneg q) (by positivity)

lemma impliedProb_lt_one (q : ℚ) : impliedProb q < 1 := by
  rw [impliedProb]; split_ifs with h
  · rw [div_lt_one (by linarith)]; linarith
  · rw [div_lt_one (by positivity)]
    have := abs_nonneg q; linarith

lemma impliedProb_pos (q : ℚ) (h : q ≠ 0) : 0 < impliedProb q := by
  rw [impliedProb]; split_ifs with hq
  · exact div_pos (by norm_num) (by linarith)
  · exact div_pos (abs_pos.mpr h) (by positivity)

lemma jsRound_eq {q : ℚ} {z : ℤ} (h1 : (z : ℚ) ≤ q + 1/2) (h2 : q + 1/2 < z + 1) :
    jsRound q = z := by
  rw [jsRound]; exact Int.floor_eq_iff.mpr ⟨h1, by linarith⟩

-- ── CLAIM THEOREMS ────────────────────────────────────────────────────────────

/-- Claim C10: impliedProb is total on every American odds input and always
returns a value in the half-open interval from 0 (inclusive) to 1 (exclusive);
strictly positive odds yield 100/(odds+100), zero and negative odds take the
abs(odds)/(abs(odds)+100) branch, so impliedProb 0 = 0, and neither branch can
divide by zero (both denominators are nonzero under the branch condition). -/
theorem impliedProb_total_range (q : ℚ) :
    0 ≤ impliedProb q ∧ impliedProb q < 1 ∧
    (0 < q → impliedProb q = 100 / (q + 100) ∧ q + 100 ≠ 0) ∧
    (q ≤ 0 → impliedProb q = |q| / (|q| + 100) ∧ |q| + 100 ≠ 0) ∧
    impliedProb 0 = 0 := by
  refine ⟨impliedProb_nonneg q, impliedProb_lt_one q, ?_, ?_, by norm_num [impliedProb]⟩
  · intro h
    constructor
    · rw [impliedProb, if_pos h]
    · intro hc; linarith [eq_neg_of_add_eq_zero_left hc]
  · intro h
    constructor
    · rw [impliedProb, if_neg (not_lt.mpr h)]
    · have := abs_nonneg q; intro hc; nlinarith [abs_nonneg q]

/-- Witness for C10 at the concrete prices +150 and -110. -/
theorem impliedProb_total_range_witness :
    ((0:ℚ) < 150 ∧ impliedProb 150 = 100 / (150 + 100)) ∧
    ((-110:ℚ) ≤ 0 ∧ impliedProb (-110) = |(-110:ℚ)| / (|(-110:ℚ)| + 100)) :=
  ⟨⟨by norm_num, ((impliedProb_total_range 150).2.2.1 (by norm_num)).1⟩,
   ⟨by norm_num, ((impliedProb_total_range (-110)).2.2.2.1 (by norm_num)).1⟩⟩

/-- Claim C4 (corrected): whenever at least one of the two American prices is
nonzero, the two components returned by devig sum to exactly 1.  The original
claim quantified over every pair of prices; at the degenerate pair (0, 0) both
implied probabilities are 0, the normalizing total is 0, and the sum is 0. -/
theorem devig_sum_one (price1 price2 : ℚ) (h : price1 ≠ 0 ∨ price2 ≠ 0) :
    (devig price1 price2).1 + (devig price1 price2).2 = 1 := by
  have ht : 0 < impliedProb price1 + impliedProb price2 := by
    rcases h with h | h
    · have h1 := impliedProb_pos price1 h
      have h2 := impliedProb_nonneg price2
      linarith
    · have h1 := impliedProb_pos price2 h
      have h2 := impliedProb_nonneg price1
      linarith
  simp only [devig]
  rw [div_add_div_same, div_self (ne_of_gt ht)]

/-- Counterexample to Claim C4 as stated: at the zero-price pair the devig
components sum to 0, not 1. -/
theorem devig_zero_counterexample :
    ¬ ((devig 0 0).1 + (devig 0 0).2 = 1) := by
  norm_num [devig, impliedProb]

/-- Witness for C4 at the concrete price pair (-110, -110). -/
theorem devig_sum_one_witness :
    ((-110:ℚ) ≠ 0 ∨ (-110:ℚ) ≠ 0) ∧
    (devig (-110) (-110)).1 + (devig (-110) (-110)).2 = 1 :=
  ⟨Or.inl (by norm_num), devig_sum_one (-110) (-110) (Or.inl (by norm_num))⟩

def withSpreadLines (g : Game) (ls : List SpreadLine) : Game :=
  ⟨g.sport, g.gameId, g.homeTeam, g.awayTeam, g.commenceTime, ls,
   g.totalLines, g.mlLines⟩

/-- Claim C7: with at least one non-sharp spread line present, the Public Money
agent ignores sharp lines entirely (prepending a sharp line changes nothing),
infers the public side as the side with the higher mean implied probability
over the non-sharp lines, computes the public percentage as
clamp(round(max_juice*100) + 8, 55, 80), and the contrarian percentage as 100
minus the public percentage. -/
theorem publicMoney_spec (game : Game)
    (h : game.spreadLines.filter (fun l => !l.isSharp) ≠ []) :
    (∀ l : SpreadLine, l.isSharp = true →
      agentPublicMoney (withSpreadLines game (l :: game.spreadLines)) =
        agentPublicMoney game) ∧
    agentPublicMoney game =
      [⟨"spread",
        if avg ((game.spreadLines.filter (fun l => !l.isSharp)).map
                  (fun l => impliedProb l.homePrice)) >
           avg ((game.spreadLines.filter (fun l => !l.isSharp)).map
                  (fun l => impliedProb l.awayPrice))
        then game.homeTeam else game.awayTeam,
        min 80 (max 55 (jsRound
          (max (avg ((game.spreadLines.filter (fun l => !l.isSharp)).map
                       (fun l => impliedProb l.homePrice)))
               (avg ((game.spreadLines.filter (fun l => !l.isSharp)).map
                       (fun l => impliedProb l.awayPrice))) * 100) + 8)),
        if avg ((game.spreadLines.filter (fun l => !l.isSharp)).map
                  (fun l => impliedProb l.homePrice)) >
           avg ((game.spreadLines.filter (fun l => !l.isSharp)).map
                  (fun l => impliedProb l.awayPrice))
        then game.awayTeam else game.homeTeam,
        100 - min 80 (max 55 (jsRound
          (max (avg ((game.spreadLines.filter (fun l => !l.isSharp)).map
                       (fun l => impliedProb l.homePrice)))
               (avg ((game.spreadLines.filter (fun l => !l.isSharp)).map
                       (fun l => impliedProb l.awayPrice))) * 100) + 8))⟩] := by
  constructor
  · intro l hl
    simp [agentPublicMoney, withSpreadLines, List.filter_cons, hl]
  · rw [agentPublicMoney]
    simp only [if_pos h]

/-- Witness for C7 at the concrete fixture gFix: the single square book prices
the home side at -120 and the away side at +200, giving a 63 percent public
estimate on the home team. -/
theorem publicMoney_spec_witness :
    gFix.spreadLines.filter (fun l => !l.isSharp) ≠ [] ∧
    agentPublicMoney gFix = [⟨"spread", "H", 63, "A", 37⟩] := by
  refine ⟨by norm_num [gFix], ?_⟩
  rw [(publicMoney_spec gFix (by norm_num [gFix])).2]
  norm_num [gFix, avg, impliedProb, jsRound, Int.floor_eq_iff]

/-- Claim C6 (corrected): the Sharp Money agent emits its strong RLM signal
(naming the away side sharp) exactly when the mean sharp-book away point
exceeds the mean square-book away point by more than 0.5 AND the mean
square-book home PRICE is below the mean sharp-book home price.  The second
condition compares raw American prices (the source variables named
sharpHomeJuice and squareHomeJuice hold prices, not implied probabilities),
not mean implied probabilities as the original claim stated. -/
theorem sharpMoney_rlm_spec (game : Game)
    (h2 : 2 ≤ game.spreadLines.length)
    (hsh : game.spreadLines.filter (·.isSharp) ≠ [])
    (hsq : game.spreadLines.filter (fun l => !l.isSharp) ≠ []) :
    ((⟨"RLM", some game.awayTeam, none, "spread", "strong", true,
        some (avg ((game.spreadLines.filter (·.isSharp)).map (·.awayPoint)) -
              avg ((game.spreadLines.filter (fun l => !l.isSharp)).map (·.awayPoint))),
        none⟩ : SharpSignal) ∈ agentSharpMoney game ↔
      (avg ((game.spreadLines.filter (·.isSharp)).map (·.awayPoint)) >
         avg ((game.spreadLines.filter (fun l => !l.isSharp)).map (·.awayPoint)) + 1/2 ∧
       avg ((game.spreadLines.filter (fun l => !l.isSharp)).map (·.homePrice)) <
         avg ((game.spreadLines.filter (·.isSharp)).map (·.homePrice))))
    ∧ (∀ s ∈ agentSharpMoney game, s.rlmDetected = true →
        s.type = "RLM" ∧ s.sharpSide = some game.awayTeam ∧ s.signal = "strong") := by
  simp only [agentSharpMoney, if_neg (not_lt.mpr h2), if_pos (And.intro hsh hsq)]
  constructor
  · constructor
    · intro hmem
      rcases List.mem_append.mp hmem with hs1 | hs2
      · by_cases hc : avg ((game.spreadLines.filter (·.isSharp)).map (·.awayPoint)) >
            avg ((game.spreadLines.filter (fun l => !l.isSharp)).map (·.awayPoint)) + 1/2 ∧
            avg ((game.spreadLines.filter (fun l => !l.isSharp)).map (·.homePrice)) <
            avg ((game.spreadLines.filter (·.isSharp)).map (·.homePrice))
        · exact hc
        · rw [if_neg hc] at hs1
          exact absurd hs1 (List.not_mem_nil _)
      · by_cases hj : |avg (game.spreadLines.map fun l => impliedProb l.homePrice) -
            avg (game.spreadLines.map fun l => impliedProb l.awayPrice)| > 4/100
        · rw [if_pos hj] at hs2
          simp only [List.mem_singleton, SharpSignal.mk.injEq] at hs2
          exact absurd hs2.1 (by decide)
        · rw [if_neg hj] at hs2
          exact absurd hs2 (List.not_mem_nil _)
    · intro hc
      exact List.mem_append.mpr (Or.inl (by rw [if_pos hc]; exact List.mem_singleton.mpr rfl))
  · intro s hs hrlm
    rcases List.mem_append.mp hs with hs1 | hs2
    · by_cases hc : avg ((game.spreadLines.filter (·.isSharp)).map (·.awayPoint)) >
          avg ((game.spreadLines.filter (fun l => !l.isSharp)).map (·.awayPoint)) + 1/2 ∧
          avg ((game.spreadLines.filter (fun l => !l.isSharp)).map (·.homePrice)) <
          avg ((game.spreadLines.filter (·.isSharp)).map (·.homePrice))
      · rw [if_pos hc] at hs1
        rw [List.mem_singleton.mp hs1]
        exact ⟨rfl, rfl, rfl⟩
      · rw [if_neg hc] at hs1
        exact absurd hs1 (List.not_mem_nil _)
    · by_cases hj : |avg (game.spreadLines.map fun l => impliedProb l.homePrice) -
          avg (game.spreadLines.map fun l => impliedProb l.awayPrice)| > 4/100
      · rw [if_pos hj] at hs2
        rw [List.mem_singleton.mp hs2] at hrlm
        simp at hrlm
      · rw [if_neg hj] at hs2
        exact absurd hs2 (List.not_mem_nil _)

/-- Counterexample to Claim C6 as stated: in the concrete game gRLMc the
mean sharp away point exceeds the mean square away point by more than 0.5 and
the mean sharp home implied probability exceeds the mean square home implied
probability, yet the Sharp Money agent emits no signal at all (the source
compares raw prices, and -105 < -110 is false). -/
theorem sharpMoney_rlm_counterexample :
    avg ((gRLMc.spreadLines.filter (·.isSharp)).map (·.awayPoint)) >
      avg ((gRLMc.spreadLines.filter (fun l => !l.isSharp)).map (·.awayPoint)) + 1/2 ∧
    avg ((gRLMc.spreadLines.filter (·.isSharp)).map (fun l => impliedProb l.homePrice)) >
      avg ((gRLMc.spreadLines.filter (fun l => !l.isSharp)).map
            (fun l => impliedProb l.homePrice)) ∧
    agentSharpMoney gRLMc = [] := by
  norm_num [gRLMc, agentSharpMoney, avg, impliedProb, abs_of_nonneg, abs_of_nonpos]

/-- Witness for C6 at the concrete game gRLM, where both code conditions hold
and the RLM signal is emitted. -/
theorem sharpMoney_rlm_spec_witness :
    (2 ≤ gRLM.spreadLines.length) ∧
    gRLM.spreadLines.filter (·.isSharp) ≠ [] ∧
    gRLM.spreadLines.filter (fun l => !l.isSharp) ≠ [] ∧
    (⟨"RLM", some gRLM.awayTeam, none, "spread", "strong", true,
       some (avg ((gRLM.spreadLines.filter (·.isSharp)).map (·.awayPoint)) -
             avg ((gRLM.spreadLines.filter (fun l => !l.isSharp)).map (·.awayPoint))),
       none⟩ : SharpSignal) ∈ agentSharpMoney gRLM :=
  ⟨by norm_num [gRLM], by norm_num [gRLM], by norm_num [gRLM],
   ((sharpMoney_rlm_spec gRLM (by norm_num [gRLM]) (by norm_num [gRLM])
       (by norm_num [gRLM])).1).mpr
     ⟨by norm_num [gRLM, avg], by norm_num [gRLM, avg]⟩⟩

/-- Claim C8 (corrected): with at least one spread line, the Injury agent flags
an away spread above 14 points on the FIRST spread line, a first-line spread
price (not moneyline price) below -135 on either side, and a spread variance of
at least 2 points across at least 3 books; lineImpact is only ever none or
check_reports (high_impact is never produced), and the scorer subtracts 10
exactly when lineImpact is check_reports (there is no -15 path). -/
theorem agentInjury_spec (game : Game) (h : game.spreadLines ≠ []) :
    ((agentInjury game).lineImpact = "none" ∨
      (agentInjury game).lineImpact = "check_reports") ∧
    ((∃ f ∈ (agentInjury game).flags, f.flag = "large underdogs, verify roster") ↔
      game.spreadLines.headI.awayPoint > 14) ∧
    ((∃ f ∈ (agentInjury game).flags, f.flag = "Heavy juice, may reflect injury news") ↔
      (game.spreadLines.headI.homePrice < -135 ∨
        game.spreadLines.headI.awayPrice < -135)) ∧
    ((∃ f ∈ (agentInjury game).flags,
        f.flag = "High spread variance, market reacting to news") ↔
      (3 ≤ game.spreadLines.length ∧
        jsMax (game.spreadLines.map (·.awayPoint)) -
          jsMin (game.spreadLines.map (·.awayPoint)) ≥ 2)) ∧
    ((agentInjury game).lineImpact = "check_reports" ↔
      (game.spreadLines.headI.awayPoint > 14 ∨
        (game.spreadLines.headI.homePrice < -135 ∨
          game.spreadLines.headI.awayPrice < -135) ∨
        (3 ≤ game.spreadLines.length ∧
          jsMax (game.spreadLines.map (·.awayPoint)) -
            jsMin (game.spreadLines.map (·.awayPoint)) ≥ 2))) ∧
    (∀ d : InjuryData,
      (injuryScore d = -10 ∨ injuryScore d = 0) ∧
      (injuryScore d = -10 ↔ d.lineImpact = "check_reports")) := by
  have hlast : ∀ d : InjuryData,
      (injuryScore d = -10 ∨ injuryScore d = 0) ∧
      (injuryScore d = -10 ↔ d.lineImpact = "check_reports") := by
    intro d
    rw [injuryScore]
    split_ifs with hd
    · exact ⟨Or.inl rfl, ⟨fun _ => hd, fun _ => rfl⟩⟩
    · exact ⟨Or.inr rfl, ⟨fun hc => absurd hc (by norm_num), fun hc => absurd hc hd⟩⟩
  refine ⟨?_, ?_, ?_, ?_, ?_, hlast⟩ <;>
    (simp only [agentInjury, if_pos h]
     by_cases hA : game.spreadLines.headI.awayPoint > 14 <;>
       by_cases hB : game.spreadLines.headI.homePrice < -135 ∨
         game.spreadLines.headI.awayPrice < -135 <;>
       by_cases hC : 3 ≤ game.spreadLines.length ∧
         jsMax (game.spreadLines.map (·.awayPoint)) -
           jsMin (game.spreadLines.map (·.awayPoint)) ≥ 2 <;>
       simp [hA, hB, hC])

/-- Counterexample to Claim C8 as stated: in the concrete game gInj the only
moneyline price on the home side is -150, worse than -135, yet the Injury
agent raises no flag and classifies lineImpact as none, because the source
inspects the first SPREAD line prices (-110 here), never the moneyline
prices. -/
theorem agentInjury_ml_counterexample :
    gInj.mlLines.map (·.homePrice) = [-150] ∧ ((-150:ℚ) < -135) ∧
    (agentInjury gInj).lineImpact = "none" ∧
    ∀ f ∈ (agentInjury gInj).flags, f.severity = "none" := by
  norm_num [gInj, agentInjury, jsMax, jsMin]

/-- Witness for C8 at the concrete game gInj3, whose first spread line has
away point 15 and home price -140, and whose three books vary by 2 points. -/
theorem agentInjury_spec_witness :
    gInj3.spreadLines ≠ [] ∧
    (agentInjury gInj3).lineImpact = "check_reports" ∧
    injuryScore (agentInjury gInj3) = -10 := by
  have h := agentInjury_spec gInj3 (by simp [gInj3])
  have hl : (agentInjury gInj3).lineImpact = "check_reports" :=
    h.2.2.2.2.1.mpr (Or.inl (by norm_num [gInj3, List.headI]))
  exact ⟨by simp [gInj3], hl, (h.2.2.2.2.2 (agentInjury gInj3)).2.mpr hl⟩

/-- Claim C1: the Value agent emits a home or away spread pick exactly when the
corresponding devigged consensus edge over the best available price exceeds
2.5 (requiring at least 2 spread lines), and an away moneyline pick exactly
when the devigged away edge exceeds 3.5 and the best away price is above +110
(requiring at least 2 moneyline lines); best prices are maxima over books,
consensus prices are arithmetic means, and each emitted pick carries the best
price as its odds and the exact edge value.  Home moneyline value is never
emitted. -/
theorem agentValue_emission_spec (game : Game) (p : ValuePick) :
    p ∈ agentValue game ↔
      (2 ≤ game.spreadLines.length ∧
        ((devig (avg (game.spreadLines.map (·.homePrice)))
                (avg (game.spreadLines.map (·.awayPrice)))).1 -
           impliedProb (jsMax (game.spreadLines.map (·.homePrice)))) * 100 > 5/2 ∧
        p = ⟨"home", game.homeTeam, some game.spreadLines.headI.homePoint,
             jsMax (game.spreadLines.map (·.homePrice)),
             ((devig (avg (game.spreadLines.map (·.homePrice)))
                     (avg (game.spreadLines.map (·.awayPrice)))).1 -
                impliedProb (jsMax (game.spreadLines.map (·.homePrice)))) * 100,
             "spread"⟩) ∨
      (2 ≤ game.spreadLines.length ∧
        ((devig (avg (game.spreadLines.map (·.homePrice)))
                (avg (game.spreadLines.map (·.awayPrice)))).2 -
           impliedProb (jsMax (game.spreadLines.map (·.awayPrice)))) * 100 > 5/2 ∧
        p = ⟨"away", game.awayTeam, some game.spreadLines.headI.awayPoint,
             jsMax (game.spreadLines.map (·.awayPrice)),
             ((devig (avg (game.spreadLines.map (·.homePrice)))
                     (avg (game.spreadLines.map (·.awayPrice)))).2 -
                impliedProb (jsMax (game.spreadLines.map (·.awayPrice)))) * 100,
             "spread"⟩) ∨
      (2 ≤ game.mlLines.length ∧
        ((devig (avg (game.mlLines.map (·.homePrice)))
                (avg (game.mlLines.map (·.awayPrice)))).2 -
           impliedProb (jsMax (game.mlLines.map (·.awayPrice)))) * 100 > 7/2 ∧
        jsMax (game.mlLines.map (·.awayPrice)) > 110 ∧
        p = ⟨"away", game.awayTeam, none,
             jsMax (game.mlLines.map (·.awayPrice)),
             ((devig (avg (game.mlLines.map (·.homePrice)))
                     (avg (game.mlLines.map (·.awayPrice)))).2 -
                impliedProb (jsMax (game.mlLines.map (·.awayPrice)))) * 100,
             "moneyline"⟩) := by
  simp only [agentValue, List.mem_append]
  by_cases hs : 2 ≤ game.spreadLines.length <;>
    by_cases hm : 2 ≤ game.mlLines.length <;>
    simp [hs, hm] <;>
    tauto

/-- Witness for C1 at the concrete fixture gFix: the away spread pick with
edge 11700/509 (about 23 percent) and the away moneyline pick with edge
4425/863 (about 5.1 percent) are both emitted and characterized. -/
theorem agentValue_emission_spec_witness :
    vpFix ∈ agentValue gFix :=
  (agentValue_emission_spec gFix vpFix).mpr
    (Or.inr (Or.inl
      ⟨by norm_num [gFix],
       by norm_num [gFix, devig, avg, impliedProb, jsMax],
       by norm_num [gFix, vpFix, devig, avg, impliedProb, jsMax, List.headI]⟩))

lemma length_filterMap_eq_countP {α β : Type} (f : α → Option β) (l : List α) :
    (l.filterMap f).length = l.countP (fun a => (f a).isSome) := by
  induction l with
  | nil => rfl
  | cons a t ih =>
      cases h : f a <;>
        simp [List.filterMap_cons, h, List.countP_cons, ih]

lemma length_flatMap_filterMap {α β γ : Type} (f : α → β → Option γ)
    (g : α → List β) (l : List α) :
    (l.flatMap (fun a => (g a).filterMap (f a))).length =
      (l.map (fun a => (g a).countP (fun b => (f a b).isSome))).sum := by
  rw [List.length_flatMap]
  congr 1
  apply List.map_congr_left
  intro a _
  exact length_filterMap_eq_countP (f a) (g a)

lemma find?_isSome_eq_any {α : Type} (p : α → Bool) (l : List α) :
    (l.find? p).isSome = l.any p := by
  induction l with
  | nil => rfl
  | cons a t ih => by_cases h : p a <;> simp [List.find?_cons, h, ih]

lemma spreadLineOf_isSome (g : RawGame) (bk : Bookmaker) (mkt : Market) :
    (spreadLineOf g bk mkt).isSome =
      (decide (mkt.key = "spreads") &&
       mkt.outcomes.any (fun o => o.name == g.home_team) &&
       mkt.outcomes.any (fun o => o.name == g.away_team)) := by
  rw [spreadLineOf, ← find?_isSome_eq_any, ← find?_isSome_eq_any]
  split_ifs with hk <;> simp [hk]
  cases mkt.outcomes.find? (fun o => o.name == g.home_team) <;>
    cases mkt.outcomes.find? (fun o => o.name == g.away_team) <;> simp

lemma totalLineOf_isSome (g : RawGame) (bk : Bookmaker) (mkt : Market) :
    (totalLineOf g bk mkt).isSome =
      (decide (mkt.key = "totals") &&
       mkt.outcomes.any (fun o => o.name == "Over") &&
       mkt.outcomes.any (fun o => o.name == "Under")) := by
  rw [totalLineOf, ← find?_isSome_eq_any, ← find?_isSome_eq_any]
  split_ifs with hk <;> simp [hk]
  cases mkt.outcomes.find? (fun o => o.name == "Over") <;>
    cases mkt.outcomes.find? (fun o => o.name == "Under") <;> simp

lemma mlLineOf_isSome (g : RawGame) (bk : Bookmaker) (mkt : Market) :
    (mlLineOf g bk mkt).isSome =
      (decide (mkt.key = "h2h") &&
       mkt.outcomes.any (fun o => o.name == g.home_team) &&
       mkt.outcomes.any (fun o => o.name == g.away_team)) := by
  rw [mlLineOf, ← find?_isSome_eq_any, ← find?_isSome_eq_any]
  split_ifs with hk <;> simp [hk]
  cases mkt.outcomes.find? (fun o => o.name == g.home_team) <;>
    cases mkt.outcomes.find? (fun o => o.name == g.away_team) <;> simp

/-- Claim C5: every Line the normalizer emits comes from a bookmaker market in
which BOTH sides were located by exact name match (home and away team names
for spreads and h2h moneylines, the literal names Over and Under for totals),
and copies exactly the fields of the matched outcomes; and the number of emitted
lines per market type equals the number of markets in which both sides are
present, so any market missing a side contributes no line at all. -/
theorem parseGame_complete_lines_spec (g : RawGame) (label : String) :
    (∀ l ∈ (parseGame g label).spreadLines,
      ∃ bk ∈ g.bookmakers, ∃ mkt ∈ bk.markets, mkt.key = "spreads" ∧
        ∃ home away : Outcome,
          mkt.outcomes.find? (fun o => o.name == g.home_team) = some home ∧
          mkt.outcomes.find? (fun o => o.name == g.away_team) = some away ∧
          home ∈ mkt.outcomes ∧ away ∈ mkt.outcomes ∧
          home.name = g.home_team ∧ away.name = g.away_team ∧
          l = ⟨bk.key, SHARP_BOOKS.contains bk.key,
               home.point, home.price, away.point, away.price⟩) ∧
    (∀ l ∈ (parseGame g label).totalLines,
      ∃ bk ∈ g.bookmakers, ∃ mkt ∈ bk.markets, mkt.key = "totals" ∧
        ∃ over under : Outcome,
          mkt.outcomes.find? (fun o => o.name == "Over") = some over ∧
          mkt.outcomes.find? (fun o => o.name == "Under") = some under ∧
          over ∈ mkt.outcomes ∧ under ∈ mkt.outcomes ∧
          over.name = "Over" ∧ under.name = "Under" ∧
          l = ⟨bk.key, SHARP_BOOKS.contains bk.key,
               over.point, over.price, under.price⟩) ∧
    (∀ l ∈ (parseGame g label).mlLines,
      ∃ bk ∈ g.bookmakers, ∃ mkt ∈ bk.markets, mkt.key = "h2h" ∧
        ∃ home away : Outcome,
          mkt.outcomes.find? (fun o => o.name == g.home_team) = some home ∧
          mkt.outcomes.find? (fun o => o.name == g.away_team) = some away ∧
          home ∈ mkt.outcomes ∧ away ∈ mkt.outcomes ∧
          home.name = g.home_team ∧ away.name = g.away_team ∧
          l = ⟨bk.key, SHARP_BOOKS.contains bk.key, home.price, away.price⟩) ∧
    (parseGame g label).spreadLines.length =
      (g.bookmakers.map (fun bk => bk.markets.countP (fun mkt =>
        decide (mkt.key = "spreads") &&
        mkt.outcomes.any (fun o => o.name == g.home_team) &&
        mkt.outcomes.any (fun o => o.name == g.away_team)))).sum ∧
    (parseGame g label).totalLines.length =
      (g.bookmakers.map (fun bk => bk.markets.countP (fun mkt =>
        decide (mkt.key = "totals") &&
        mkt.outcomes.any (fun o => o.name == "Over") &&
        mkt.outcomes.any (fun o => o.name == "Under")))).sum ∧
    (parseGame g label).mlLines.length =
      (g.bookmakers.map (fun bk => bk.markets.countP (fun mkt =>
        decide (mkt.key = "h2h") &&
        mkt.outcomes.any (fun o => o.name == g.home_team) &&
        mkt.outcomes.any (fun o => o.name == g.away_team)))).sum := by
  refine ⟨?_, ?_, ?_, ?_, ?_, ?_⟩
  · intro l hl
    simp only [parseGame, List.mem_flatMap, List.mem_filterMap] at hl
    obtain ⟨bk, hbk, mkt, hmkt, heq⟩ := hl
    refine ⟨bk, hbk, mkt, hmkt, ?_⟩
    rw [spreadLineOf] at heq
    split_ifs at heq with hk
    · rcases hfh : mkt.outcomes.find? (fun o => o.name == g.home_team) with _ | home <;>
        rw [hfh] at heq
      · simp at heq
      · rcases hfa : mkt.outcomes.find? (fun o => o.name == g.away_team) with _ | away <;>
          rw [hfa] at heq
        · simp at heq
        · refine ⟨hk, home, away, hfh, hfa, List.mem_of_find?_eq_some hfh,
                  List.mem_of_find?_eq_some hfa, ?_, ?_, (Option.some.inj heq).symm⟩
          · simpa using List.find?_some hfh
          · simpa using List.find?_some hfa
  · intro l hl
    simp only [parseGame, List.mem_flatMap, List.mem_filterMap] at hl
    obtain ⟨bk, hbk, mkt, hmkt, heq⟩ := hl
    refine ⟨bk, hbk, mkt, hmkt, ?_⟩
    rw [totalLineOf] at heq
    split_ifs at heq with hk
    · rcases hfh : mkt.outcomes.find? (fun o => o.name == "Over") with _ | over <;>
        rw [hfh] at heq
      · simp at heq
      · rcases hfa : mkt.outcomes.find? (fun o => o.name == "Under") with _ | under <;>
          rw [hfa] at heq
        · simp at heq
        · refine ⟨hk, over, under, hfh, hfa, List.mem_of_find?_eq_some hfh,
                  List.mem_of_find?_eq_some hfa, ?_, ?_, (Option.some.inj heq).symm⟩
          · simpa using List.find?_some hfh
          · simpa using List.find?_some hfa
  · intro l hl
    simp only [parseGame, List.mem_flatMap, List.mem_filterMap] at hl
    obtain ⟨bk, hbk, mkt, hmkt, heq⟩ := hl
    refine ⟨bk, hbk, mkt, hmkt, ?_⟩
    rw [mlLineOf] at heq
    split_ifs at heq with hk
    · rcases hfh : mkt.outcomes.find? (fun o => o.name == g.home_team) with _ | home <;>
        rw [hfh] at heq
      · simp at heq
      · rcases hfa : mkt.outcomes.find? (fun o => o.name == g.away_team) with _ | away <;>
          rw [hfa] at heq
        · simp at heq
        · refine ⟨hk, home, away, hfh, hfa, List.mem_of_find?_eq_some hfh,
                  List.mem_of_find?_eq_some hfa, ?_, ?_, (Option.some.inj heq).symm⟩
          · simpa using List.find?_some hfh
          · simpa using List.find?_some hfa
  · show (g.bookmakers.flatMap
        (fun bk => bk.markets.filterMap (spreadLineOf g bk))).length = _
    rw [length_flatMap_filterMap]
    congr 1
    apply List.map_congr_left
    intro bk _
    apply List.countP_congr
    intro mkt _
    rw [spreadLineOf_isSome]
  · show (g.bookmakers.flatMap
        (fun bk => bk.markets.filterMap (totalLineOf g bk))).length = _
    rw [length_flatMap_filterMap]
    congr 1
    apply List.map_congr_left
    intro bk _
    apply List.countP_congr
    intro mkt _
    rw [totalLineOf_isSome]
  · show (g.bookmakers.flatMap
        (fun bk => bk.markets.filterMap (mlLineOf g bk))).length = _
    rw [length_flatMap_filterMap]
    congr 1
    apply List.map_congr_left
    intro bk _
    apply List.countP_congr
    intro mkt _
    rw [mlLineOf_isSome]

/-- Witness for C5 at the concrete raw fixture rawFix: the pinnacle spread
line is emitted and its provenance is produced by the theorem. -/
theorem parseGame_complete_lines_spec_witness :
    (⟨"pinnacle", true, -3, -110, 3, -110⟩ : SpreadLine) ∈
      (parseGame rawFix "NBA").spreadLines ∧
    ∃ bk ∈ rawFix.bookmakers, ∃ mkt ∈ bk.markets, mkt.key = "spreads" ∧
      ∃ home away : Outcome,
        mkt.outcomes.find? (fun o => o.name == rawFix.home_team) = some home ∧
        mkt.outcomes.find? (fun o => o.name == rawFix.away_team) = some away ∧
        home ∈ mkt.outcomes ∧ away ∈ mkt.outcomes ∧
        home.name = rawFix.home_team ∧ away.name = rawFix.away_team ∧
        (⟨"pinnacle", true, -3, -110, 3, -110⟩ : SpreadLine) =
          ⟨bk.key, SHARP_BOOKS.contains bk.key,
           home.point, home.price, away.point, away.price⟩ :=
  ⟨by decide, (parseGame_complete_lines_spec rawFix "NBA").1 _ (by decide)⟩

lemma mem_spreadArbs {g : Game} {o : ArbOpp} :
    o ∈ spreadArbs g ↔ 2 ≤ g.spreadLines.length ∧
      ∃ away ∈ g.spreadLines, ∃ home ∈ g.spreadLines, away.book ≠ home.book ∧
        impliedProb away.awayPrice + impliedProb home.homePrice < 98/100 ∧
        o = mkSpreadArb g away home := by
  rw [spreadArbs]
  split_ifs with h2
  · simp only [List.mem_flatMap, List.mem_filterMap, h2, true_and]
    constructor
    · rintro ⟨away, ha, home, hh, heq⟩
      by_cases hb : away.book = home.book
      · rw [if_pos hb] at heq; simp at heq
      · rw [if_neg hb] at heq
        by_cases hp : impliedProb away.awayPrice + impliedProb home.homePrice < 98/100
        · rw [if_pos hp] at heq
          exact ⟨away, ha, home, hh, hb, hp, (Option.some.inj heq).symm⟩
        · rw [if_neg hp] at heq; simp at heq
    · rintro ⟨away, ha, home, hh, hb, hp, rfl⟩
      exact ⟨away, ha, home, hh, by rw [if_neg hb, if_pos hp]⟩
  · simp only [List.not_mem_nil, false_iff]
    rintro ⟨hl, -⟩
    omega

lemma mem_mlArbs {g : Game} {o : ArbOpp} :
    o ∈ mlArbs g ↔ 2 ≤ g.mlLines.length ∧
      ∃ away ∈ g.mlLines, ∃ home ∈ g.mlLines, away.book ≠ home.book ∧
        impliedProb away.awayPrice + impliedProb home.homePrice < 98/100 ∧
        o = mkMlArb g away home := by
  rw [mlArbs]
  split_ifs with h2
  · simp only [List.mem_flatMap, List.mem_filterMap, h2, true_and]
    constructor
    · rintro ⟨away, ha, home, hh, heq⟩
      by_cases hb : away.book = home.book
      · rw [if_pos hb] at heq; simp at heq
      · rw [if_neg hb] at heq
        by_cases hp : impliedProb away.awayPrice + impliedProb home.homePrice < 98/100
        · rw [if_pos hp] at heq
          exact ⟨away, ha, home, hh, hb, hp, (Option.some.inj heq).symm⟩
        · rw [if_neg hp] at heq; simp at heq
    · rintro ⟨away, ha, home, hh, hb, hp, rfl⟩
      exact ⟨away, ha, home, hh, by rw [if_neg hb, if_pos hp]⟩
  · simp only [List.not_mem_nil, false_iff]
    rintro ⟨hl, -⟩
    omega

lemma arb_profit_pos {t : ℚ} (h0 : 0 < t) (ht : t < 98/100) :
    0 < (1 / t - 1) * 100 := by
  have h1 : 1 < 1 / t := by
    rw [lt_div_iff₀ h0]; linarith
  linarith

/-- Claim C3 (corrected): an opportunity is reported exactly for ordered pairs
of distinct-book same-market lines (spreads or moneylines) whose combined
implied probability is below 0.98; every opportunity carries the profit
percentage (1/totalProb - 1)*100, strictly positive whenever the combined
implied probability is positive; SPREAD opportunities carry proportional
stake percentages summing exactly to 100, but MONEYLINE opportunities carry
no stake split at all (contrary to the original claim); and the pooled list
is sorted descending by the two-decimal profit percentage that the source
compares (parseFloat of the toFixed(2) string). -/
theorem detectArbitrage_spec (games : List Game) :
    (∀ o, o ∈ detectArbitrage games ↔
       ∃ g ∈ games,
         (2 ≤ g.spreadLines.length ∧
           ∃ away ∈ g.spreadLines, ∃ home ∈ g.spreadLines,
             away.book ≠ home.book ∧
             impliedProb away.awayPrice + impliedProb home.homePrice < 98/100 ∧
             o = mkSpreadArb g away home) ∨
         (2 ≤ g.mlLines.length ∧
           ∃ away ∈ g.mlLines, ∃ home ∈ g.mlLines,
             away.book ≠ home.book ∧
             impliedProb away.awayPrice + impliedProb home.homePrice < 98/100 ∧
             o = mkMlArb g away home)) ∧
    (∀ (g : Game) (away home : SpreadLine),
       0 < impliedProb away.awayPrice + impliedProb home.homePrice →
       impliedProb away.awayPrice + impliedProb home.homePrice < 98/100 →
       (mkSpreadArb g away home).profit =
         (1 / (impliedProb away.awayPrice + impliedProb home.homePrice) - 1) * 100 ∧
       0 < (mkSpreadArb g away home).profit ∧
       ∃ sa sh : ℚ,
         (mkSpreadArb g away home).stakeAway = some sa ∧
         (mkSpreadArb g away home).stakeHome = some sh ∧
         sa = 100 * impliedProb away.awayPrice /
           (impliedProb away.awayPrice + impliedProb home.homePrice) ∧
         sh = 100 * impliedProb home.homePrice /
           (impliedProb away.awayPrice + impliedProb home.homePrice) ∧
         sa + sh = 100) ∧
    (∀ (g : Game) (away home : MLLine),
       0 < impliedProb away.awayPrice + impliedProb home.homePrice →
       impliedProb away.awayPrice + impliedProb home.homePrice < 98/100 →
       (mkMlArb g away home).profit =
         (1 / (impliedProb away.awayPrice + impliedProb home.homePrice) - 1) * 100 ∧
       0 < (mkMlArb g away home).profit ∧
       (mkMlArb g away home).stakeAway = none ∧
       (mkMlArb g away home).stakeHome = none) ∧
    (detectArbitrage games).Pairwise
      (fun a b => round2 b.profit ≤ round2 a.profit) := by
  refine ⟨?_, ?_, ?_, ?_⟩
  · intro o
    rw [detectArbitrage, (List.mergeSort_perm _ _).mem_iff]
    simp only [List.mem_flatMap, List.mem_append, mem_spreadArbs, mem_mlArbs]
  · intro g away home h0 ht
    refine ⟨rfl, arb_profit_pos h0 ht, _, _, rfl, rfl, rfl, rfl, ?_⟩
    rw [div_add_div_same, ← mul_add, mul_div_assoc,
        div_self (ne_of_gt h0), mul_one]
  · intro g away home h0 ht
    exact ⟨rfl, arb_profit_pos h0 ht, rfl, rfl⟩
  · rw [detectArbitrage]
    have hs := @List.sorted_mergeSort ArbOpp
      (fun a b => decide (round2 b.profit ≤ round2 a.profit))
      (fun a b c hab hbc => by
        simp only [decide_eq_true_eq] at *
        exact le_trans hbc hab)
      (fun a b => by
        simp only [Bool.or_eq_true, decide_eq_true_eq]
        exact le_total _ _)
      (games.flatMap (fun g => spreadArbs g ++ mlArbs g))
    exact hs.imp (fun h => of_decide_eq_true h)

/-- Counterexample to Claim C3 as stated: at the concrete single-game list
containing gML (a pure moneyline arbitrage at +120/+120 across two books),
both reported opportunities carry no stake percentages at all: the source
only attaches a stake split to spread opportunities. -/
theorem detectArbitrage_ml_stake_counterexample :
    (detectArbitrage [gML]).length = 2 ∧
    ∀ o ∈ detectArbitrage [gML],
      o.type = "moneyline" ∧ o.stakeAway = none ∧ o.stakeHome = none := by
  constructor
  · rw [detectArbitrage, List.length_mergeSort]
    norm_num [gML, spreadArbs, mlArbs, mkMlArb, impliedProb,
      List.filterMap_cons, List.filterMap_nil]
    decide
  · intro o ho
    rw [detectArbitrage] at ho
    have ho2 := (List.mergeSort_perm _ _).subset ho
    simp only [List.mem_flatMap] at ho2
    obtain ⟨g, hg, hmem⟩ := ho2
    rw [List.mem_singleton] at hg
    subst hg
    rcases List.mem_append.mp hmem with hsp | hml
    · rw [mem_spreadArbs] at hsp
      exact absurd hsp.1 (by norm_num [gML])
    · rw [mem_mlArbs] at hml
      obtain ⟨-, away, -, home, -, -, -, rfl⟩ := hml
      exact ⟨rfl, rfl, rfl⟩

/-- Witness for C3 at the moneyline pair of gML: total implied probability
10/11 is positive and below 0.98, so the reported profit is positive. -/
theorem detectArbitrage_spec_witness :
    (0 < impliedProb (120:ℚ) + impliedProb (120:ℚ)) ∧
    (impliedProb (120:ℚ) + impliedProb (120:ℚ) < 98/100) ∧
    0 < (mkMlArb gML ⟨"pinnacle", true, 120, 120⟩
          ⟨"fanduel", false, 120, 120⟩).profit :=
  ⟨by norm_num [impliedProb], by norm_num [impliedProb],
   ((detectArbitrage_spec [gML]).2.2.1 gML
      ⟨"pinnacle", true, 120, 120⟩ ⟨"fanduel", false, 120, 120⟩
      (by norm_num [impliedProb]) (by norm_num [impliedProb])).2.1⟩

/-- Claim C2: a Value candidate survives into the candidate pool exactly when
confidence is at least 65 and displayed edge is at least 3.5 (equivalently, it
is discarded exactly when confidence < 65 or displayed edge < 3.5, and no
other admission condition exists); confidence is clamp(round(score*0.65+20),
55, 90) of the raw composite score and displayed edge is
clamp(round1(rawEdge*0.88), 0, 14); the emitted list is sorted descending by
raw composite score, holds at most the top 8, and contains only surviving
candidates. -/
theorem agentConsensus_gate_spec (hist : HistoryMap) (games : List Game) :
    (∀ c, c ∈ candidatesOf hist games ↔
      ∃ g ∈ games, ∃ vp ∈ agentValue g,
        c = mkCandidate hist g vp ∧ 65 ≤ c.confidence ∧ 7/2 ≤ c.edge) ∧
    (∀ (g : Game) (vp : ValuePick),
      (mkCandidate hist g vp).score = scoreOf hist g vp ∧
      (mkCandidate hist g vp).confidence =
        min 90 (max 55 (jsRound (scoreOf hist g vp * (65/100) + 20))) ∧
      (mkCandidate hist g vp).edge =
        max 0 (min 14 (round1 (vp.edge * (88/100))))) ∧
    (agentConsensus hist games).Pairwise (fun a b => b.score ≤ a.score) ∧
    (agentConsensus hist games).length ≤ 8 ∧
    (∀ c ∈ agentConsensus hist games, c ∈ candidatesOf hist games) := by
  refine ⟨?_, ?_, ?_, ?_, ?_⟩
  · intro c
    simp only [candidatesOf, List.mem_flatMap, List.mem_filterMap]
    constructor
    · rintro ⟨g, hg, vp, hvp, heq⟩
      by_cases hc : (mkCandidate hist g vp).confidence < 65 ∨
          (mkCandidate hist g vp).edge < 7/2
      · rw [if_pos hc] at heq; simp at heq
      · rw [if_neg hc] at heq
        push_neg at hc
        obtain rfl := (Option.some.inj heq).symm
        exact ⟨g, hg, vp, hvp, rfl, hc.1, hc.2⟩
    · rintro ⟨g, hg, vp, hvp, rfl, h1, h2⟩
      refine ⟨g, hg, vp, hvp, ?_⟩
      rw [if_neg (by push_neg; exact ⟨h1, h2⟩)]
  · intro g vp
    exact ⟨rfl, rfl, rfl⟩
  · rw [agentConsensus]
    have hs := @List.sorted_mergeSort Candidate
      (fun a b => decide (b.score ≤ a.score))
      (fun a b c hab hbc => by
        simp only [decide_eq_true_eq] at *
        exact le_trans hbc hab)
      (fun a b => by
        simp only [Bool.or_eq_true, decide_eq_true_eq]
        exact le_total _ _)
      (candidatesOf hist games)
    exact List.Pairwise.sublist (List.take_sublist 8 _)
      (hs.imp (fun h => of_decide_eq_true h))
  · rw [agentConsensus, List.length_take]
    exact min_le_left _ _
  · intro c hc
    rw [agentConsensus] at hc
    exact (List.mergeSort_perm _ _).subset (List.mem_of_mem_take hc)

/-- Witness for C2 at the concrete fixture gFix: the away spread candidate has
score 75, confidence 69 and clamped edge 14, so it survives the gate. -/
theorem agentConsensus_gate_spec_witness :
    mkCandidate [] gFix vpFix ∈ candidatesOf [] [gFix] :=
  ((agentConsensus_gate_spec [] [gFix]).1 (mkCandidate [] gFix vpFix)).mpr
    ⟨gFix, by norm_num, vpFix,
     by norm_num [agentValue, gFix, vpFix, jsMax, avg, devig, impliedProb],
     rfl,
     by norm_num [mkCandidate, scoreOf, gFix, vpFix, hmGet,
       agentLineMovement, agentPublicMoney, agentSharpMoney, agentInjury,
       agentSituational, lineScore, pubScore, sharpScore, injuryScore, sitScore,
       jsMax, jsMin, avg, devig, impliedProb, jsRound, Int.floor_eq_iff,
       Int.le_floor, abs_of_nonneg, abs_of_nonpos, List.headI, List.cons_ne_nil,
       (by decide : ("none" : String) ≠ "check_reports"),
       (by decide : ("weak" : String) ≠ "strong"),
       (by decide : ("weak" : String) ≠ "moderate"),
       (by decide : ("moderate" : String) ≠ "strong")],
     by norm_num [mkCandidate, round1, jsRound, Int.floor_eq_iff, vpFix]⟩

lemma hmGet_hmSet (s : HistoryMap) (k : String) (v : HistEntry) (q : String) :
    hmGet (hmSet s k v) q = if q = k then some v else hmGet s q := by
  induction s with
  | nil =>
      by_cases h : q = k
      · simp [hmSet, hmGet, h]
      · simp [hmSet, hmGet, h, Ne.symm h]
  | cons p t ih =>
      by_cases hp : p.1 = k
      · rw [hmSet, if_pos hp]
        by_cases hq : q = k
        · simp [hmGet, hq]
        · have hpq : ¬ p.1 = q := by rw [hp]; exact Ne.symm hq
          simp [hmGet, hq, hpq, Ne.symm hq]
      · rw [hmSet, if_neg hp]
        by_cases hq : p.1 = q
        · have hqk : ¬ q = k := by rw [← hq]; exact hp
          simp [hmGet, hq, hqk]
        · simp [hmGet, hq, ih]

lemma recordLineMovement_eq_none {now : ℕ} {s : HistoryMap} {gid : String}
    {line : ℚ} {book : String} (hg : hmGet s gid = none) :
    recordLineMovement now s gid line book =
      hmSet s gid ⟨[now], [line], [book]⟩ := by
  rw [recordLineMovement, hg]

lemma recordLineMovement_eq_some {now : ℕ} {s : HistoryMap} {gid : String}
    {line : ℚ} {book : String} {e : HistEntry} (hg : hmGet s gid = some e) :
    recordLineMovement now s gid line book =
      if e.timestamps = [] ∨ e.timestamps.getLast?.getD 0 + 300000 < now then
        hmSet s gid ⟨e.timestamps ++ [now], e.lines ++ [line], e.books ++ [book]⟩
      else s := by
  rw [recordLineMovement, hg]

lemma record_noop {now : ℕ} {s : HistoryMap} {gid : String} {line : ℚ}
    {book : String} (e : HistEntry) (he : hmGet s gid = some e)
    (hne : e.timestamps ≠ [])
    (hlt : ¬ (e.timestamps.getLast?.getD 0 + 300000 < now)) :
    recordLineMovement now s gid line book = s := by
  rw [recordLineMovement_eq_some he,
      if_neg (by rintro (h | h); exacts [hne h, hlt h])]

def histFresh (now : ℕ) (s : HistoryMap) : Prop :=
  ∀ gid e, hmGet s gid = some e →
    e.timestamps ≠ [] ∧ e.timestamps.getLast?.getD 0 = now

lemma histFresh_record {now : ℕ} {s : HistoryMap} (h : histFresh now s)
    (gid : String) (line : ℚ) (book : String) :
    histFresh now (recordLineMovement now s gid line book) := by
  intro q e he
  cases hg : hmGet s gid with
  | none =>
      rw [recordLineMovement_eq_none hg, hmGet_hmSet] at he
      by_cases hq : q = gid
      · rw [if_pos hq] at he
        cases Option.some.inj he
        exact ⟨by simp, by simp⟩
      · rw [if_neg hq] at he
        exact h q e he
  | some e0 =>
      rw [recordLineMovement_eq_some hg] at he
      split_ifs at he with hc
      · rw [hmGet_hmSet] at he
        by_cases hq : q = gid
        · rw [if_pos hq] at he
          cases Option.some.inj he
          refine ⟨by simp, ?_⟩
          simp [List.getLast?_concat]
        · rw [if_neg hq] at he
          exact h q e he
      · exact h q e he

lemma record_mem (now : ℕ) (s : HistoryMap) (gid : String) (line : ℚ)
    (book : String) :
    (hmGet (recordLineMovement now s gid line book) gid).isSome := by
  cases hg : hmGet s gid with
  | none => rw [recordLineMovement_eq_none hg, hmGet_hmSet, if_pos rfl]; rfl
  | some e0 =>
      rw [recordLineMovement_eq_some hg]
      split_ifs with hc
      · rw [hmGet_hmSet, if_pos rfl]; rfl
      · rw [hg]; rfl

lemma record_pres_mem {now : ℕ} {s : HistoryMap} {gid : String} {line : ℚ}
    {book : String} (q : String) (h : (hmGet s q).isSome) :
    (hmGet (recordLineMovement now s gid line book) q).isSome := by
  cases hg : hmGet s gid with
  | none =>
      rw [recordLineMovement_eq_none hg, hmGet_hmSet]
      by_cases hq : q = gid
      · rw [if_pos hq]; rfl
      · rw [if_neg hq]; exact h
  | some e0 =>
      rw [recordLineMovement_eq_some hg]
      split_ifs with hc
      · rw [hmGet_hmSet]
        by_cases hq : q = gid
        · rw [if_pos hq]; rfl
        · rw [if_neg hq]; exact h
      · exact h

def recStep (now : ℕ) : HistoryMap → (String × ℚ × String) → HistoryMap :=
  fun st r => recordLineMovement now st r.1 r.2.1 r.2.2

lemma foldRecords_fresh (now : ℕ) (rs : List (String × ℚ × String)) :
    ∀ s, histFresh now s → histFresh now (rs.foldl (recStep now) s) := by
  induction rs with
  | nil => intro s h; exact h
  | cons r t ih =>
      intro s h
      exact ih _ (histFresh_record h r.1 r.2.1 r.2.2)

lemma foldRecords_pres_mem (now : ℕ) (rs : List (String × ℚ × String)) :
    ∀ s q, (hmGet s q).isSome → (hmGet (rs.foldl (recStep now) s) q).isSome := by
  induction rs with
  | nil => intro s q h; exact h
  | cons r t ih =>
      intro s q h
      exact ih _ q (record_pres_mem q h)

lemma foldRecords_mem (now : ℕ) (rs : List (String × ℚ × String)) :
    ∀ s, ∀ r ∈ rs, (hmGet (rs.foldl (recStep now) s) r.1).isSome := by
  induction rs with
  | nil => intro s r hr; exact absurd hr (List.not_mem_nil r)
  | cons p t ih =>
      intro s r hr
      rcases List.mem_cons.mp hr with rfl | hr
      · exact foldRecords_pres_mem now t _ r.1 (record_mem now s r.1 r.2.1 r.2.2)
      · exact ih _ r hr

lemma foldRecords_noop (now : ℕ) (rs : List (String × ℚ × String)) :
    ∀ s, (∀ r ∈ rs, ∃ e, hmGet s r.1 = some e ∧ e.timestamps ≠ [] ∧
        ¬ (e.timestamps.getLast?.getD 0 + 300000 < now)) →
      rs.foldl (recStep now) s = s := by
  induction rs with
  | nil => intro s _; rfl
  | cons r t ih =>
      intro s h
      obtain ⟨e, he, hne, hlt⟩ := h r (List.mem_cons_self r t)
      have hstep : recStep now s r = s := record_noop e he hne hlt
      rw [List.foldl_cons, hstep]
      exact ih s (fun q hq => h q (List.mem_cons_of_mem r hq))

/-- Counterexample to Claim C9 as stated: the Line Movement agent is not a pure
function of the normalized game alone; it reads the shared lineHistory table
that parseGame writes through recordLineMovement.  On the very same game gFix
it returns no signal under an empty history but returns a historical-movement
signal once the history holds two recorded points. -/
theorem lineMovement_history_counterexample :
    agentLineMovement [] gFix ≠
      agentLineMovement [("NBA_H_A", ⟨[0, 400000], [0, 5], ["b", "b"]⟩)] gFix := by
  have h2 : hmGet [("NBA_H_A", ⟨[0, 400000], [0, 5], ["b", "b"]⟩)] "NBA_H_A" =
      some ⟨[0, 400000], [0, 5], ["b", "b"]⟩ := by simp [hmGet]
  norm_num [agentLineMovement, gFix, hmGet, h2, jsMax, jsMin, avg,
    List.headI, abs_of_nonneg, abs_of_nonpos, List.cons_ne_nil]

/-- Claim C9 (corrected): the pipeline is deterministic given the line-history
state, and rerunning it on identical input yields identical output (state,
picks and arbitrage list) as long as no new history point is recorded; from an
empty history this holds whenever the second run happens within the source's
300000-millisecond record window of the first.  A rerun outside that window
records a new point and can change the output, so the unconditional claim
fails. -/
theorem scan_rerun_stable (input : List (String × RawGame)) (now1 now2 : ℕ)
    (h : now2 ≤ now1 + 300000) :
    scanOnce now2 (scanOnce now1 [] input).1 input = scanOnce now1 [] input := by
  have key : ∀ games : List Game,
      recordAll now2 (recordAll now1 [] games) games = recordAll now1 [] games := by
    intro games
    have he : recordAll now1 [] games =
        (games.flatMap recordSeq).foldl (recStep now1) [] := rfl
    have he2 : recordAll now2 (recordAll now1 [] games) games =
        (games.flatMap recordSeq).foldl (recStep now2) (recordAll now1 [] games) := rfl
    rw [he2, he]
    have hfresh : histFresh now1 ((games.flatMap recordSeq).foldl (recStep now1) []) :=
      foldRecords_fresh now1 _ [] (by intro gid e he; simp [hmGet] at he)
    apply foldRecords_noop
    intro r hr
    obtain ⟨e, he⟩ := Option.isSome_iff_exists.mp
      (foldRecords_mem now1 (games.flatMap recordSeq) [] r hr)
    obtain ⟨hne, hlast⟩ := hfresh r.1 e he
    refine ⟨e, he, hne, ?_⟩
    rw [hlast]
    omega
  simp only [scanOnce]
  rw [key]

/-- Witness for C9: a rerun 200 seconds after an initial scan from the empty
history, on the concrete one-game input, reproduces the first run exactly. -/
theorem scan_rerun_stable_witness :
    scanOnce 200000 (scanOnce 0 [] [("NBA", rawFix)]).1 [("NBA", rawFix)] =
      scanOnce 0 [] [("NBA", rawFix)] :=
  scan_rerun_stable [("NBA", rawFix)] 0 200000 (by norm_num)
